import Mathlib

/-!
Verification development for the `account_service_client` package: a shallow
embedding of `decorator.py`, `client.py` and the reservation-resolution
protocol they implement, together with theorems settling the specification
claims about that protocol.

Python values that flow through the resolver are modelled by `Val`
(`None`, booleans, integers, strings and string-keyed dictionaries);
argument mappings by association lists; the remote Account Service by a
record of the three possible HTTP exchange results; and the wrapper by an
executable function that also returns the trace of HTTP exchanges it
performed.
-/

namespace AccountService

/-- Python values relevant to the resolver: `None`, bools, ints, strings and
string-keyed dicts (JSON response documents and argument values). -/
inductive Val where
  | none
  | bool (b : Bool)
  | int (n : Int)
  | str (s : String)
  | dict (entries : List (String × Val))

/-- Association-list lookup for argument mappings and dict entries
(first occurrence wins, as in a Python dict built without duplicates). -/
def alookup : List (String × Val) → String → Option Val
  | [], _ => Option.none
  | (k, v) :: rest, key => if k = key then some v else alookup rest key

/-- An argument mapping (`bound.arguments`, dict entries, keyword arguments). -/
abbrev Args := List (String × Val)

/-- Python truthiness (`if value:`). -/
def truthy : Val → Bool
  | .none => false
  | .bool b => b
  | .int n => n != 0
  | .str s => !s.isEmpty
  | .dict es => !es.isEmpty

/-- Python `a or b`. -/
def pyOr (a b : Val) : Val := if truthy a then a else b

/-- Decimal digits of a candidate integer literal, or `none` when the string is
empty or holds a non-digit. -/
def digitsToNat : List Char → Option Nat
  | [] => Option.none
  | cs =>
    cs.foldl
      (fun acc c =>
        acc.bind (fun a => if c.isDigit then some (a * 10 + (c.toNat - 48)) else Option.none))
      (some 0)

/-- Leading and trailing whitespace removal on a character list. -/
def trimChars (cs : List Char) : List Char :=
  ((cs.dropWhile Char.isWhitespace).reverse.dropWhile Char.isWhitespace).reverse

/-- Python `int(s)` on a string: optional sign and decimal digits, surrounding
whitespace stripped; `none` models the `ValueError` branch. -/
def parseIntString (s : String) : Option Int :=
  match trimChars s.toList with
  | '-' :: rest => (digitsToNat rest).map (fun n => -(n : Int))
  | '+' :: rest => (digitsToNat rest).map (fun n => (n : Int))
  | cs => (digitsToNat cs).map (fun n => (n : Int))

/-- Python `int(value)`: identity on ints, `True`/`False` to `1`/`0`, string
parsing, and `none` for the `TypeError`/`ValueError` cases (`None`, dicts). -/
def pyInt : Val → Option Int
  | .int n => some n
  | .bool b => some (if b then 1 else 0)
  | .str s => parseIntString s
  | _ => Option.none

/-- `math.ceil(a / b)` for integer `a` and positive integer `b`, computed
exactly. -/
def cdiv (a b : Int) : Int := -((-a).fdiv b)

/-- `d.get(key)` on a response document: entry value when the key is present,
`None` otherwise. (All response documents handled by the decorator are
dicts; a non-dict value has no entries.) -/
def dget (v : Val) (key : String) : Val :=
  match v with
  | .dict es => (alookup es key).getD Val.none
  | _ => Val.none

/-- `d.get(key, default)` on a response document. -/
def dgetD (v : Val) (key : String) (dflt : Val) : Val :=
  match v with
  | .dict es => (alookup es key).getD dflt
  | _ => dflt

mutual

/-- Python `repr` of a value, used by `str` on dicts. -/
def pyRepr : Val → String
  | .none => "None"
  | .bool b => if b then "True" else "False"
  | .int n => toString n
  | .str s => "'" ++ s ++ "'"
  | .dict es => "\x7b" ++ pyReprEntries es ++ "\x7d"

/-- `repr` of the comma-separated entries of a dict. -/
def pyReprEntries : List (String × Val) → String
  | [] => ""
  | [(k, v)] => "'" ++ k ++ "': " ++ pyRepr v
  | (k, v) :: rest => "'" ++ k ++ "': " ++ pyRepr v ++ ", " ++ pyReprEntries rest

end

/-- Python `str(value)` as applied by `_resolve_account_override`. -/
def pyStr : Val → String
  | .str s => s
  | v => pyRepr v

/-! ## The request-count and override resolvers (`decorator.py`) -/

/-- Key list scanned by `_resolve_account_override` (decorator.py). -/
def overrideKeys : List String := ["account_id", "account_override", "user_account_id", "x_user_id"]

/-- The scanning loop of `_resolve_account_override`: first key whose value is
truthy wins and is passed through `str`. -/
def resolveOverrideGo : List String → Args → Option String
  | [], _ => Option.none
  | k :: ks, arguments =>
    let value := (alookup arguments k).getD Val.none
    if truthy value then some (pyStr value) else resolveOverrideGo ks arguments

/-- `_resolve_account_override` from decorator.py. -/
def _resolve_account_override (arguments : Args) : Option String :=
  resolveOverrideGo overrideKeys arguments

/-- Key list scanned by `_resolve_records_per_page_from_args` (decorator.py). -/
def rppKeys : List String := ["records_per_page", "page_size", "per_page"]

/-- The scanning loop of `_resolve_records_per_page_from_args`: skip missing
(`None`) values, skip unparsable values (`TypeError`/`ValueError` branch),
return the first positive parsed value, default to `1`. -/
def rppGo : List String → Args → Int
  | [], _ => 1
  | k :: ks, arguments =>
    match (alookup arguments k).getD Val.none with
    | Val.none => rppGo ks arguments
    | value =>
      match pyInt value with
      | some parsed => if parsed > 0 then parsed else rppGo ks arguments
      | Option.none => rppGo ks arguments

/-- `_resolve_records_per_page_from_args` from decorator.py. -/
def _resolve_records_per_page_from_args (arguments : Args) : Int :=
  rppGo rppKeys arguments

/-- `_resolve_request_count` from decorator.py. -/
def _resolve_request_count (arguments : Args) (request_count : Option Int)
    (calculate_request_count : Bool) : Int :=
  match request_count with
  | some rc => max rc 1
  | Option.none =>
    if calculate_request_count = false then 1
    else
      match (alookup arguments "num_results").getD Val.none with
      | Val.none => 1
      | numResults =>
        match pyInt numResults with
        | Option.none => 1
        | some numResultsInt =>
          let recordsPerPage := _resolve_records_per_page_from_args arguments
          let recordsPerPage := if recordsPerPage ≤ 0 then 1 else recordsPerPage
          max (cdiv numResultsInt recordsPerPage) 1

/-! ## Python call binding (`inspect.signature` / `BoundArguments`)

The wrapper binds the wrapped task's declared signature against the caller's
positional and keyword inputs (`signature.bind_partial` + `apply_defaults`),
reads back `bound.args` / `bound.kwargs`, and re-invokes the task.  The
signatures appearing in this repository use positional-or-keyword and
keyword-only parameters, which is what the model covers. -/

/-- A declared parameter of a Python function: name, whether it is
keyword-only (declared after `*`), and its default value when present. -/
structure Param where
  name : String
  kwOnly : Bool
  default : Option Val

/-- Parameter names of a signature. -/
def sigNames (sig : List Param) : List String := sig.map Param.name

/-- Positional binding phase of `Signature.bind`: each positional value binds
the next parameter; reaching a keyword-only parameter (or running out of
parameters) with values left over is a `TypeError`. -/
def posBind : List Param → List Val → Except String (List (String × Val))
  | _, [] => .ok []
  | [], _ :: _ => .error "too many positional arguments"
  | p :: ps, v :: vs =>
    if p.kwOnly then .error "too many positional arguments"
    else (posBind ps vs).map (fun rest => (p.name, v) :: rest)

/-- Keyword checking phase of `Signature.bind`: every keyword must name a
declared parameter, must not collide with a positionally bound parameter,
and must not repeat. -/
def kwBindCheck (sig : List Param) (posNames : List String) :
    List (String × Val) → Except String Unit
  | [] => .ok ()
  | (k, _) :: rest =>
    if (sigNames sig).contains k = false then
      .error ("got an unexpected keyword argument " ++ k)
    else if posNames.contains k then
      .error ("got multiple values for argument " ++ k)
    else if (rest.map Prod.fst).contains k then
      .error ("got multiple values for argument " ++ k)
    else kwBindCheck sig posNames rest

/-- Build an argument mapping in declaration order from a per-parameter
value choice. -/
def assemble (sig : List Param) (g : Param → Option Val) : Args :=
  sig.filterMap (fun p => (g p).map (fun v => (p.name, v)))

/-- `signature.bind_partial(*args, **kwargs)`: the resulting
`bound.arguments` mapping (in declaration order), or the `TypeError`. -/
def bindPartial (sig : List Param) (posArgs : List Val) (kwargs : Args) :
    Except String Args := do
  let pb ← posBind sig posArgs
  let _ ← kwBindCheck sig (pb.map Prod.fst) kwargs
  .ok (assemble sig (fun p => (alookup pb p.name).orElse (fun _ => alookup kwargs p.name)))

/-- `bound.apply_defaults()`: fill in declared defaults for parameters the
caller did not bind. -/
def applyDefaults (sig : List Param) (arguments : Args) : Args :=
  assemble sig (fun p => (alookup arguments p.name).orElse (fun _ => p.default))

/-- `BoundArguments.args`: values of the leading parameters, in declaration
order, stopping at the first keyword-only or unbound parameter. -/
def boundArgsPos : List Param → Args → List Val
  | [], _ => []
  | p :: ps, arguments =>
    if p.kwOnly then []
    else
      match alookup arguments p.name with
      | some v => v :: boundArgsPos ps arguments
      | Option.none => []

/-- Worker for `boundArgsKw`: once a keyword-only or unbound parameter has
been seen, every later bound parameter is reported as a keyword. -/
def boundArgsKwAux : List Param → Args → Bool → Args
  | [], _, _ => []
  | p :: ps, arguments, started =>
    let nowStarted := started || p.kwOnly || (alookup arguments p.name).isNone
    if nowStarted then
      match alookup arguments p.name with
      | some v => (p.name, v) :: boundArgsKwAux ps arguments true
      | Option.none => boundArgsKwAux ps arguments true
    else boundArgsKwAux ps arguments false

/-- `BoundArguments.kwargs`. -/
def boundArgsKw (sig : List Param) (arguments : Args) : Args :=
  boundArgsKwAux sig arguments false

/-- `dict.update`: existing keys are overwritten in place, new keys are
appended in update order. -/
def dictUpdate (base upd : Args) : Args :=
  base.map (fun kv =>
    match alookup upd kv.1 with
    | some v => (kv.1, v)
    | Option.none => kv)
    ++ upd.filter (fun kv => (alookup base kv.1).isNone)

/-- A full call `func(*args, **kwargs)`: bind, then require every parameter
to be bound or defaulted; the result is the argument mapping the function
body observes. -/
def fullBind (sig : List Param) (posArgs : List Val) (kwargs : Args) :
    Except String Args := do
  let ba ← bindPartial sig posArgs kwargs
  let full := applyDefaults sig ba
  if sig.all (fun p => (alookup full p.name).isSome) then .ok full
  else .error "missing a required argument"

/-! ## The transport client (`client.py`) and the remote service

`AccountServiceClient` declares `get_account(crawler_type, account_id=None)`
and `update_rate_limit(account_id, crawler_type, increment)`.  The decorator
invokes all three operations with keyword arguments only, so a client call is
modelled by a keyword-binding check against the method's declared parameters
followed, when the binding succeeds, by one HTTP exchange whose result the
surrounding environment chooses. -/

/-- One HTTP exchange as the decorator observes it: a JSON body on 2xx, an
`httpx.HTTPStatusError` from `raise_for_status` on a non-2xx status, or an
`httpx.HTTPError` at transport level. -/
inductive RemoteResult where
  | ok (body : Val)
  | statusErr (code : Nat) (text : String)
  | transportErr (msg : String)

/-- The remote Account Service for one invocation: the result each of the
three operations would produce if performed.  (Each is performed at most
once per invocation.) -/
structure Remote where
  reserve : RemoteResult
  getAccount : RemoteResult
  updateRateLimit : RemoteResult

/-- Declared parameters of `AccountServiceClient.get_account` (client.py):
`crawler_type` required, `account_id` defaulted. -/
def get_account_params : List Param :=
  [⟨"crawler_type", false, Option.none⟩, ⟨"account_id", false, some Val.none⟩]

/-- Declared parameters of `AccountServiceClient.update_rate_limit`
(client.py): all required. -/
def update_rate_limit_params : List Param :=
  [⟨"account_id", false, Option.none⟩, ⟨"crawler_type", false, Option.none⟩,
   ⟨"increment", false, Option.none⟩]

/-- Modelled from the spec: `reserve_account` (operation 2 of the transport
client, section 4.2 of the spec — the preferred single-round-trip
reservation) is called by decorator.py but has no definition under the
source tree; its parameter names are taken from its only call site, with
which the spec's description of the preferred attempt is consistent. -/
def reserve_account_params : List Param :=
  [⟨"type", false, Option.none⟩, ⟨"payload", false, Option.none⟩,
   ⟨"account_id", false, some Val.none⟩]

/-- Whether a keywords-only call of a method binds: every supplied keyword
names a declared parameter and every non-defaulted parameter is supplied.
A failure is a `TypeError` raised before any HTTP exchange happens. -/
def kwCallOk (params : List Param) (kwargs : List String) : Bool :=
  kwargs.all (fun k => (sigNames params).contains k) &&
    params.all (fun p => p.default.isSome || kwargs.contains p.name)

/-! ## The wrapper's protocol run (`decorator.py`, `account_rate_limit`) -/

/-- Failure classification of a wrapper invocation. `accountServiceError`
is the single `AccountServiceError` type of decorator.py, with its cause:
a non-2xx status, a transport failure, or a protocol-level failure (missing
`account_id`). `typeError` is a Python `TypeError` (bad keyword binding). -/
inductive ErrCause where
  | statusFailure (code : Nat) (text : String)
  | transportFailure (msg : String)
  | protocolFailure (msg : String)

/-- An exception escaping the wrapper (other than the task's own). -/
inductive PyError where
  | typeError (msg : String)
  | accountServiceError (cause : ErrCause)

/-- An HTTP exchange actually performed, with the data the decorator sent. -/
inductive CallEv where
  | reserveCall (ctype : String) (payload : Val) (override : Option String)
  | getAccountCall (ctype : String) (override : Option String)
  | updateRateLimitCall (accountId : Val) (ctype : String) (increment : Int)

/-- The 404-fallback block of the wrapper (decorator.py lines 68–88):
`get_account` followed by `update_rate_limit`, synthesizing a reserve-shaped
response from the fetched account and the originally resolved count.  Both
client calls are keyword calls whose keyword `type` must bind against the
method's declared `crawler_type` parameter; the binding check decides
whether the HTTP exchange happens at all.  Returns the performed exchanges
and either the `(reserve_response, account_payload)` pair or the escaping
exception. -/
def runFallback (remote : Remote) (accountType : String) (accountOverride : Option String)
    (resolvedCount : Int) : List CallEv × Except PyError (Val × Val) :=
  if kwCallOk get_account_params ["type", "account_id"] = false then
    ([], .error (.typeError "get_account got an unexpected keyword argument type"))
  else
    let ev1 := CallEv.getAccountCall accountType accountOverride
    match remote.getAccount with
    | .statusErr c t => ([ev1], .error (.accountServiceError (.statusFailure c t)))
    | .transportErr m => ([ev1], .error (.accountServiceError (.transportFailure m)))
    | .ok getResponse =>
      let accountId := dget getResponse "account_id"
      if truthy accountId = false then
        ([ev1], .error (.accountServiceError
          (.protocolFailure "Account Service response missing account_id")))
      else if kwCallOk update_rate_limit_params ["account_id", "type", "increment"] = false then
        ([ev1], .error (.typeError "update_rate_limit got an unexpected keyword argument type"))
      else
        let ev2 := CallEv.updateRateLimitCall accountId accountType resolvedCount
        match remote.updateRateLimit with
        | .statusErr c t => ([ev1, ev2], .error (.accountServiceError (.statusFailure c t)))
        | .transportErr m => ([ev1, ev2], .error (.accountServiceError (.transportFailure m)))
        | .ok _ =>
          let accountPayload := pyOr (dget getResponse "account") (Val.dict [])
          let reserveResponse := Val.dict
            [("account", accountPayload), ("account_id", accountId),
             ("request_count", Val.int resolvedCount)]
          ([ev1, ev2], .ok (reserveResponse, accountPayload))

/-- The guarded call sequence of the wrapper (decorator.py lines 57–96): the
preferred `reserve_account` attempt, the 404-triggered fallback, and the
conversion of any `httpx` failure into `AccountServiceError` by the outer
handlers.  Returns the performed exchanges and either the
`(reserve_response, account_payload)` state after the `try` block or the
escaping exception. -/
def runProtocol (remote : Remote) (accountType : String) (accountOverride : Option String)
    (resolvedCount : Int) : List CallEv × Except PyError (Val × Val) :=
  if kwCallOk reserve_account_params ["type", "payload", "account_id"] = false then
    ([], .error (.typeError "reserve_account got an unexpected keyword argument"))
  else
    let payload := Val.dict [("request_count", Val.int resolvedCount)]
    let ev := CallEv.reserveCall accountType payload accountOverride
    match remote.reserve with
    | .ok body => ([ev], .ok (body, pyOr (dget body "account") (Val.dict [])))
    | .statusErr code text =>
      if code = 404 then
        let (tr, res) := runFallback remote accountType accountOverride resolvedCount
        (ev :: tr, res)
      else ([ev], .error (.accountServiceError (.statusFailure code text)))
    | .transportErr msg => ([ev], .error (.accountServiceError (.transportFailure msg)))

/-- Normalization after the `try` block (decorator.py lines 98–103): re-read
the account payload and `account_id` from the reserve-shaped response, fail
with `AccountServiceError` when `account_id` is falsy, and take the
effective request count from the response with the resolved count as
default. -/
def normalizeOutcome (reserveResponse accountPayload : Val) (resolvedCount : Int) :
    Except PyError (Val × Val × Val) :=
  let ap := pyOr (dget reserveResponse "account") (pyOr accountPayload (Val.dict []))
  let accountId := dget reserveResponse "account_id"
  if truthy accountId = false then
    .error (.accountServiceError (.protocolFailure "Account Service response missing account_id"))
  else
    .ok (ap, accountId, dgetD reserveResponse "request_count" (Val.int resolvedCount))

/-- Static configuration of one `account_rate_limit(...)` decorator
application. -/
structure DecoratorConfig where
  type : String
  request_count : Option Int
  calculate_request_count : Bool

/-- How one wrapper invocation ends: the wrapped task is invoked with a
final argument mapping, or an exception escapes first. -/
inductive RunResult where
  | invoked (finalArgs : Args)
  | failed (e : PyError)

/-- One invocation of the wrapped task (decorator.py `wrapper`): bind the
caller's inputs against the task's signature, apply defaults, resolve the
account override and request count, run the protocol, normalize, inject the
outcome into the bound keyword arguments, and re-invoke the task.  Returns
the HTTP exchanges performed and how the invocation ended. -/
def runWrapper (cfg : DecoratorConfig) (sig : List Param) (remote : Remote)
    (posArgs : List Val) (kwargs : Args) : List CallEv × RunResult :=
  match bindPartial sig posArgs kwargs with
  | .error m => ([], .failed (.typeError m))
  | .ok ba =>
    let argumentsD := applyDefaults sig ba
    let accountOverride := _resolve_account_override argumentsD
    let resolvedCount := _resolve_request_count argumentsD cfg.request_count
      cfg.calculate_request_count
    let (tr, res) := runProtocol remote cfg.type accountOverride resolvedCount
    match res with
    | .error e => (tr, .failed e)
    | .ok (reserveResponse, accountPayload) =>
      match normalizeOutcome reserveResponse accountPayload resolvedCount with
      | .error e => (tr, .failed e)
      | .ok (account, accountId, requestCount) =>
        let injected : Args :=
          [("account", account), ("account_id", accountId), ("request_count", requestCount)]
        let callKwargs := dictUpdate (boundArgsKw sig argumentsD) injected
        match fullBind sig (boundArgsPos sig argumentsD) callKwargs with
        | .error m => (tr, .failed (.typeError m))
        | .ok finalArgs => (tr, .invoked finalArgs)

/-- What `account_rate_limit(...)` itself does when applied to a function
(decorator.py lines 36–38): a function that is not a coroutine function is
rejected at wrap time with a `TypeError`; otherwise the wrapper is
installed. -/
inductive DecorateResult where
  | wrapped
  | raised (e : PyError)

/-- Applying the decorator to a candidate function, characterized by whether
`inspect.iscoroutinefunction` accepts it. -/
def account_rate_limit_decorate (isCoroutineFunction : Bool) : DecorateResult :=
  if isCoroutineFunction then .wrapped
  else .raised (.typeError "account_rate_limit decorator requires an async function")

/-- Whether a decoration outcome raised the `AccountServiceError` kind. -/
def decorateRaisedServiceError : DecorateResult → Bool
  | .raised (.accountServiceError _) => true
  | _ => false

/-- Whether a run ended in a `TypeError`. -/
def isTypeErrorFailure : RunResult → Bool
  | .failed (.typeError _) => true
  | _ => false

/-! ## Statement helpers and spec-side models -/

/-- `d.get(key)` as an `Option`: `some` exactly when the key is present in a
dict. -/
def dgetOpt (v : Val) (key : String) : Option Val :=
  match v with
  | .dict es => alookup es key
  | _ => Option.none

/-- The parse of one per-call argument as the page-size scan sees it. -/
def argParsed (arguments : Args) (k : String) : Option Int :=
  pyInt ((alookup arguments k).getD Val.none)

/-- Whether one per-call argument supplies a positive parseable page size
(the condition under which the scan of `_resolve_records_per_page_from_args`
stops at that key). -/
def argKeyUsable (arguments : Args) (k : String) : Bool :=
  match argParsed arguments k with
  | some p => p > 0
  | Option.none => false

/-- First positive integer-parseable value among the per-call page-size keys,
as described by the spec. -/
def specArgPageSize : List String → Args → Option Int
  | [], _ => Option.none
  | k :: ks, arguments =>
    match (alookup arguments k).bind pyInt with
    | some p => if p > 0 then some p else specArgPageSize ks arguments
    | Option.none => specArgPageSize ks arguments

/-- Modelled from the spec: the records-per-page resolution order the spec
describes (section 4.3 step 2 / section 8) — (a) a per-call argument among
the fixed key set, first positive integer-parseable value wins; (b) an
environment variable whose name is explicitly configured or derived from
the crawler type (uppercased, suffixed); (c) a generic fallback environment
variable; (d) the literal 1.  No such environment-consulting resolver exists
in the source tree; this definition exists to compare the spec's described
behaviour with the `_resolve_records_per_page_from_args` the source defines. -/
def spec_records_per_page (arguments : Args) (env : String → Option String)
    (configuredEnvName : Option String) (crawlerType : String) : Int :=
  match specArgPageSize ["records_per_page", "page_size", "per_page"] arguments with
  | some p => p
  | Option.none =>
    let envName := configuredEnvName.getD (crawlerType.toUpper ++ "_RECORDS_PER_PAGE")
    match (env envName).bind parseIntString with
    | some p => p
    | Option.none =>
      match (env "RECORDS_PER_PAGE").bind parseIntString with
      | some p => p
      | Option.none => 1

/-- The argument mapping induced by a list of parameters with chosen values. -/
def pvPairs (l : List (Param × Val)) : Args :=
  l.map (fun x => (x.1.name, x.2))

/-- The three named values the wrapper injects on a successful preferred
reservation whose response is `body`, with originally resolved count `r`
(the `injected` dict of decorator.py). -/
def injectedOutcome (body : Val) (r : Int) : Args :=
  [("account", pyOr (dget body "account") (Val.dict [])),
   ("account_id", dget body "account_id"),
   ("request_count", dgetD body "request_count" (Val.int r))]

/-- The three injected names. -/
def injectedNames : List String := ["account", "account_id", "request_count"]

/-! ## Concrete fixtures used by witnesses and counterexamples -/

/-- A server that answers the preferred reserve call with a full response
(`account`, `account_id`, `request_count`). -/
def remotePreferred : Remote :=
  ⟨RemoteResult.ok (Val.dict
      [("account", Val.dict [("account_id", Val.str "a1"), ("provider", Val.str "g")]),
       ("account_id", Val.str "a1"), ("request_count", Val.int 3)]),
   RemoteResult.ok Val.none, RemoteResult.ok Val.none⟩

/-- A server whose preferred endpoint is missing (404) and whose legacy
endpoints would both answer successfully. -/
def remoteLegacy : Remote :=
  ⟨RemoteResult.statusErr 404 "Not Found",
   RemoteResult.ok (Val.dict
      [("account", Val.dict [("provider", Val.str "g")]), ("account_id", Val.str "a2")]),
   RemoteResult.ok (Val.dict [("ok", Val.bool true)])⟩

/-- A server failing the preferred call with a 500. -/
def remote500 : Remote :=
  ⟨RemoteResult.statusErr 500 "boom", RemoteResult.ok Val.none, RemoteResult.ok Val.none⟩

/-- A server failing the preferred call at transport level. -/
def remoteDown : Remote :=
  ⟨RemoteResult.transportErr "connection reset", RemoteResult.ok Val.none,
   RemoteResult.ok Val.none⟩

/-- A server answering the preferred call with a response lacking
`account_id`. -/
def remoteNoId : Remote :=
  ⟨RemoteResult.ok (Val.dict [("account", Val.dict [("provider", Val.str "g")])]),
   RemoteResult.ok Val.none, RemoteResult.ok Val.none⟩

/-- Decorator configuration with derivation enabled and no fixed count. -/
def cfgDerive : DecoratorConfig := ⟨"google_account", Option.none, true⟩

/-- Decorator configuration with a fixed count of 3. -/
def cfgFixed3 : DecoratorConfig := ⟨"google_account", some 3, false⟩

/-- A task signature declaring the three injected names as keyword-only
parameters: `(url, num_results=20, *, account=None, account_id=None,
request_count=None)`. -/
def sigKwOnly : List Param :=
  [⟨"url", false, Option.none⟩, ⟨"num_results", false, some (Val.int 20)⟩,
   ⟨"account", true, some Val.none⟩, ⟨"account_id", true, some Val.none⟩,
   ⟨"request_count", true, some Val.none⟩]

/-- A task signature declaring the three injected names as
positional-or-keyword parameters: `(url, account=None, account_id=None,
request_count=None)`. -/
def sigPositional : List Param :=
  [⟨"url", false, Option.none⟩, ⟨"account", false, some Val.none⟩,
   ⟨"account_id", false, some Val.none⟩, ⟨"request_count", false, some Val.none⟩]

/-! ## General lemmas about the embedding -/

theorem pyOr_absorb (a b : Val) : pyOr a (pyOr (pyOr a b) b) = pyOr a b := by
  cases h : truthy a <;> cases h2 : truthy b <;> simp [pyOr, h, h2]

theorem dgetD_of_opt {v : Val} {k : String} {w : Val} (h : dgetOpt v k = some w) (d : Val) :
    dgetD v k d = w := by
  cases v with
  | dict es => simp [dgetOpt] at h; simp [dgetD, h]
  | none => simp [dgetOpt] at h
  | bool b => simp [dgetOpt] at h
  | int n => simp [dgetOpt] at h
  | str s => simp [dgetOpt] at h

theorem kwCallOk_reserve :
    kwCallOk reserve_account_params ["type", "payload", "account_id"] = true := rfl

theorem kwCallOk_get_account_fails :
    kwCallOk get_account_params ["type", "account_id"] = false := rfl

theorem runProtocol_reserve_ok {remote : Remote} {body : Val}
    (h : remote.reserve = RemoteResult.ok body) (t : String) (o : Option String) (r : Int) :
    runProtocol remote t o r =
      ([CallEv.reserveCall t (Val.dict [("request_count", Val.int r)]) o],
       Except.ok (body, pyOr (dget body "account") (Val.dict []))) := by
  simp [runProtocol, kwCallOk_reserve, h]

/-! ## Claim theorems -/

/-- C4: whenever a fixed request count is configured, the resolved request
count is `max(fixed, 1)` for every argument mapping and every state of the
`calculate_request_count` flag — derivation is skipped entirely. -/
theorem C4_fixed_count_overrides (arguments : Args) (fixed : Int) (calculate : Bool) :
    _resolve_request_count arguments (some fixed) calculate = max fixed 1 := rfl

/-- C9 counterexample: applying the decorator to a non-async function raises
a plain `TypeError` at wrap time, which is not the protocol error kind
(`AccountServiceError`), contrary to the claim's taxonomy clause. -/
theorem C9_counterexample :
    account_rate_limit_decorate false =
      DecorateResult.raised (PyError.typeError
        "account_rate_limit decorator requires an async function") ∧
    decorateRaisedServiceError (account_rate_limit_decorate false) = false := ⟨rfl, rfl⟩

/-- C9 (amended): applying the decorator to anything that is not an
asynchronous callable fails at wrap time — with a built-in `TypeError`, not
the protocol error kind — while an asynchronous callable is wrapped. -/
theorem C9_wrap_time_failure :
    account_rate_limit_decorate false =
      DecorateResult.raised (PyError.typeError
        "account_rate_limit decorator requires an async function") ∧
    account_rate_limit_decorate true = DecorateResult.wrapped := ⟨rfl, rfl⟩

/-- C2 (code bug): when the preferred reserve call fails with 404, the
wrapper's fallback block immediately raises `TypeError` — the decorator
calls `get_account` with keyword `type` while `get_account` declares
`crawler_type` — so no fetch-account and no update-rate-limit HTTP call is
ever made, and the claimed fetch-then-update sequence never happens. -/
theorem C2_fallback_keyword_bug :
    runProtocol remoteLegacy "google_account" Option.none 3 =
      ([CallEv.reserveCall "google_account" (Val.dict [("request_count", Val.int 3)])
          Option.none],
       Except.error (PyError.typeError "get_account got an unexpected keyword argument type")) ∧
    runWrapper cfgFixed3 [] remoteLegacy [] [] =
      ([CallEv.reserveCall "google_account" (Val.dict [("request_count", Val.int 3)])
          Option.none],
       RunResult.failed (PyError.typeError
         "get_account got an unexpected keyword argument type")) := ⟨rfl, rfl⟩

/-- C3: any preferred-call failure other than a 404 status — a non-404
status or a transport failure — never reaches the fallback path (the trace
holds the reserve exchange only) and propagates immediately, wrapped into
the single `AccountServiceError` type with the corresponding remote cause. -/
theorem C3_non404_never_falls_back (remote : Remote) (t : String) (o : Option String)
    (r : Int) :
    (∀ code text, remote.reserve = RemoteResult.statusErr code text → code ≠ 404 →
      runProtocol remote t o r =
        ([CallEv.reserveCall t (Val.dict [("request_count", Val.int r)]) o],
         Except.error (PyError.accountServiceError (ErrCause.statusFailure code text)))) ∧
    (∀ msg, remote.reserve = RemoteResult.transportErr msg →
      runProtocol remote t o r =
        ([CallEv.reserveCall t (Val.dict [("request_count", Val.int r)]) o],
         Except.error (PyError.accountServiceError (ErrCause.transportFailure msg)))) := by
  constructor
  · intro code text h hne
    simp [runProtocol, kwCallOk_reserve, h, hne]
  · intro msg h
    simp [runProtocol, kwCallOk_reserve, h]

/-- C3 witness: a 500 status and a transport failure both surface as the
wrapped remote error without any fallback exchange. -/
theorem C3_witness :
    runProtocol remote500 "google_account" Option.none 2 =
      ([CallEv.reserveCall "google_account" (Val.dict [("request_count", Val.int 2)])
          Option.none],
       Except.error (PyError.accountServiceError (ErrCause.statusFailure 500 "boom"))) ∧
    runProtocol remoteDown "google_account" Option.none 2 =
      ([CallEv.reserveCall "google_account" (Val.dict [("request_count", Val.int 2)])
          Option.none],
       Except.error (PyError.accountServiceError
         (ErrCause.transportFailure "connection reset"))) :=
  ⟨(C3_non404_never_falls_back remote500 "google_account" Option.none 2).1 500 "boom" rfl
      (by decide),
   (C3_non404_never_falls_back remoteDown "google_account" Option.none 2).2
      "connection reset" rfl⟩

/-- C1: when the preferred reserve call succeeds, the only exchange is the
reserve call itself — carrying the resolved override and resolved count —
and the normalized outcome (account payload, account identifier, effective
request count) is read directly from the reserve response; no fetch-account
or update-rate-limit exchange happens. -/
theorem C1_preferred_path (remote : Remote) (t : String) (o : Option String) (r : Int)
    (body rcv : Val)
    (hres : remote.reserve = RemoteResult.ok body)
    (hid : truthy (dget body "account_id") = true)
    (hrc : dgetOpt body "request_count" = some rcv) :
    runProtocol remote t o r =
      ([CallEv.reserveCall t (Val.dict [("request_count", Val.int r)]) o],
       Except.ok (body, pyOr (dget body "account") (Val.dict []))) ∧
    normalizeOutcome body (pyOr (dget body "account") (Val.dict [])) r =
      Except.ok (pyOr (dget body "account") (Val.dict []), dget body "account_id", rcv) ∧
    (∀ (cfg : DecoratorConfig) (sig : List Param) (posArgs : List Val) (kwargs : Args)
        (ba : Args), bindPartial sig posArgs kwargs = Except.ok ba →
      (runWrapper cfg sig remote posArgs kwargs).1 =
        [CallEv.reserveCall cfg.type
          (Val.dict [("request_count", Val.int (_resolve_request_count (applyDefaults sig ba)
            cfg.request_count cfg.calculate_request_count))])
          (_resolve_account_override (applyDefaults sig ba))]) := by
  refine ⟨runProtocol_reserve_ok hres t o r, ?_, ?_⟩
  · simp [normalizeOutcome, pyOr_absorb, hid, dgetD_of_opt hrc]
  · intro cfg sig posArgs kwargs ba hba
    simp only [runWrapper, hba]
    rw [runProtocol_reserve_ok hres]
    cases hN : normalizeOutcome body (pyOr (dget body "account") (Val.dict []))
        (_resolve_request_count (applyDefaults sig ba) cfg.request_count
          cfg.calculate_request_count) with
    | error e => simp [hN]
    | ok out =>
      obtain ⟨a, aid, rc⟩ := out
      cases hF : fullBind sig (boundArgsPos sig (applyDefaults sig ba))
          (dictUpdate (boundArgsKw sig (applyDefaults sig ba))
            [("account", a), ("account_id", aid), ("request_count", rc)]) with
      | error m => simp [hN, hF]
      | ok finalArgs => simp [hN, hF]

/-- C1 witness: the spec's example — a successful reserve response with
`account_id = "a1"` and `request_count = 3` yields exactly that outcome
with the reserve exchange as the only call. -/
theorem C1_witness :
    runProtocol remotePreferred "google_account" Option.none 1 =
      ([CallEv.reserveCall "google_account" (Val.dict [("request_count", Val.int 1)])
          Option.none],
       Except.ok (Val.dict
          [("account", Val.dict [("account_id", Val.str "a1"), ("provider", Val.str "g")]),
           ("account_id", Val.str "a1"), ("request_count", Val.int 3)],
         Val.dict [("account_id", Val.str "a1"), ("provider", Val.str "g")])) ∧
    normalizeOutcome (Val.dict
        [("account", Val.dict [("account_id", Val.str "a1"), ("provider", Val.str "g")]),
         ("account_id", Val.str "a1"), ("request_count", Val.int 3)])
      (Val.dict [("account_id", Val.str "a1"), ("provider", Val.str "g")]) 1 =
      Except.ok (Val.dict [("account_id", Val.str "a1"), ("provider", Val.str "g")],
        Val.str "a1", Val.int 3) ∧
    (runWrapper cfgDerive sigKwOnly remotePreferred [Val.str "http://x"] []).1 =
      [CallEv.reserveCall "google_account" (Val.dict [("request_count", Val.int 20)])
        Option.none] := by
  obtain ⟨h1, h2, h3⟩ := C1_preferred_path remotePreferred "google_account" Option.none 1
    (Val.dict
      [("account", Val.dict [("account_id", Val.str "a1"), ("provider", Val.str "g")]),
       ("account_id", Val.str "a1"), ("request_count", Val.int 3)])
    (Val.int 3) rfl rfl rfl
  exact ⟨h1, h2, h3 cfgDerive sigKwOnly [Val.str "http://x"] [] _ rfl⟩

/-- C5: with no fixed count and derivation enabled, the resolved count is
`ceil(num_results / records_per_page)` floored at 1 when `num_results`
parses as an integer (with a non-positive records-per-page treated as 1),
and 1 when `num_results` is absent or unparsable; `95/20` gives 5 and
`100/25` gives 4. -/
theorem C5_derivation_formula (arguments : Args) :
    ((alookup arguments "num_results").getD Val.none = Val.none →
      _resolve_request_count arguments Option.none true = 1) ∧
    (pyInt ((alookup arguments "num_results").getD Val.none) = Option.none →
      _resolve_request_count arguments Option.none true = 1) ∧
    (∀ n : Int, pyInt ((alookup arguments "num_results").getD Val.none) = some n →
      _resolve_request_count arguments Option.none true =
        max (cdiv n (if _resolve_records_per_page_from_args arguments ≤ 0 then 1
          else _resolve_records_per_page_from_args arguments)) 1) ∧
    _resolve_request_count [("num_results", Val.int 95), ("records_per_page", Val.int 20)]
      Option.none true = 5 ∧
    _resolve_request_count [("num_results", Val.int 100), ("page_size", Val.int 25)]
      Option.none true = 4 := by
  refine ⟨?_, ?_, ?_, rfl, rfl⟩
  · intro h
    simp [_resolve_request_count, h]
  · intro h
    simp only [_resolve_request_count]
    cases hv : (alookup arguments "num_results").getD Val.none <;>
      rw [hv] at h <;> simp [h]
  · intro n hn
    simp only [_resolve_request_count]
    cases hv : (alookup arguments "num_results").getD Val.none with
    | none => rw [hv] at hn; simp [pyInt] at hn
    | bool b => rw [hv] at hn; simp [hv, hn]
    | int m => rw [hv] at hn; simp [hv, hn]
    | str s => rw [hv] at hn; simp [hv, hn]
    | dict es => rw [hv] at hn; simp [pyInt] at hn

/-- C5 witness: `num_results = 95` with `records_per_page = 20` resolves,
through the derivation branch of the theorem, to 5. -/
theorem C5_witness :
    _resolve_request_count [("num_results", Val.int 95), ("records_per_page", Val.int 20)]
      Option.none true = 5 := by
  have h := (C5_derivation_formula
    [("num_results", Val.int 95), ("records_per_page", Val.int 20)]).2.2.1 95 rfl
  rw [h]; rfl

theorem rppGo_cons_pos {arguments : Args} {k : String} {p : Int} (ks : List String)
    (hp : argParsed arguments k = some p) (hpos : 0 < p) :
    rppGo (k :: ks) arguments = p := by
  unfold argParsed at hp
  cases hv : (alookup arguments k).getD Val.none with
  | none => rw [hv] at hp; simp [pyInt] at hp
  | bool b => rw [hv] at hp; simp [rppGo, hv, hp, hpos]
  | int n => rw [hv] at hp; simp [rppGo, hv, hp, hpos]
  | str s => rw [hv] at hp; simp [rppGo, hv, hp, hpos]
  | dict es => rw [hv] at hp; simp [pyInt] at hp

theorem rppGo_cons_unusable {arguments : Args} {k : String}
    (h : argKeyUsable arguments k = false) (ks : List String) :
    rppGo (k :: ks) arguments = rppGo ks arguments := by
  unfold argKeyUsable argParsed at h
  cases hv : (alookup arguments k).getD Val.none <;> rw [hv] at h <;>
    simp only [rppGo, hv] <;> cases hpi : pyInt _ <;> simp_all

theorem rppGo_ge_one (ks : List String) (arguments : Args) : 1 ≤ rppGo ks arguments := by
  induction ks with
  | nil => simp [rppGo]
  | cons k ks ih =>
    cases hap : argParsed arguments k with
    | none =>
      rw [rppGo_cons_unusable (by simp [argKeyUsable, hap]) ks]
      exact ih
    | some p =>
      by_cases hp : 0 < p
      · rw [rppGo_cons_pos ks hap hp]
        omega
      · rw [rppGo_cons_unusable (by simp [argKeyUsable, hap, hp]) ks]
        exact ih

theorem alookup_mem {l : Args} {k : String} {v : Val} (h : alookup l k = some v) :
    (k, v) ∈ l := by
  induction l with
  | nil => simp [alookup] at h
  | cons kv rest ih =>
    obtain ⟨k0, v0⟩ := kv
    by_cases hk : k0 = k
    · subst hk
      simp [alookup] at h
      simp [h]
    · simp [alookup, hk] at h
      exact List.mem_cons_of_mem _ (ih h)

theorem alookup_eq_none {l : Args} {k : String} (h : k ∉ l.map Prod.fst) :
    alookup l k = Option.none := by
  induction l with
  | nil => rfl
  | cons kv rest ih =>
    obtain ⟨k0, v0⟩ := kv
    have h1 : ¬ k0 = k := fun he => h (by simp [he])
    have h2 : k ∉ rest.map Prod.fst := fun hm => h (by simp [hm])
    simp [alookup, h1, ih h2]

theorem mem_keys_of_alookup {l : Args} {k : String} {v : Val} (h : alookup l k = some v) :
    k ∈ l.map Prod.fst :=
  List.mem_map.mpr ⟨(k, v), alookup_mem h, rfl⟩

theorem alookup_append (l₁ l₂ : Args) (k : String) :
    alookup (l₁ ++ l₂) k = (alookup l₁ k).orElse (fun _ => alookup l₂ k) := by
  induction l₁ with
  | nil => simp [alookup, Option.orElse]
  | cons kv rest ih =>
    obtain ⟨k0, v0⟩ := kv
    by_cases hk : k0 = k <;> simp [alookup, hk, ih, Option.orElse]

theorem alookup_map_overlay (base upd : Args) (k : String) :
    alookup (base.map (fun kv =>
      match alookup upd kv.1 with
      | some v => (kv.1, v)
      | Option.none => kv)) k =
    (alookup base k).map (fun v => (alookup upd k).getD v) := by
  induction base with
  | nil => simp [alookup]
  | cons kv rest ih =>
    obtain ⟨k0, v0⟩ := kv
    by_cases hk : k0 = k
    · subst hk
      cases hu : alookup upd k0 <;> simp [alookup, hu]
    · cases hu : alookup upd k0 <;> simp [alookup, hk, hu, ih]

theorem alookup_filter_not_base (base upd : Args) (k : String)
    (h : alookup base k = Option.none) :
    alookup (upd.filter (fun kv => (alookup base kv.1).isNone)) k = alookup upd k := by
  induction upd with
  | nil => rfl
  | cons kv rest ih =>
    obtain ⟨k1, v1⟩ := kv
    by_cases hk : k1 = k
    · subst hk
      simp [List.filter_cons, h, alookup, ih]
    · cases hb : (alookup base k1).isNone <;> simp [List.filter_cons, hb, alookup, hk, ih]

theorem alookup_dictUpdate (base upd : Args) (k : String) :
    alookup (dictUpdate base upd) k =
      match alookup base k with
      | some v => some ((alookup upd k).getD v)
      | Option.none => alookup upd k := by
  unfold dictUpdate
  rw [alookup_append, alookup_map_overlay]
  cases hb : alookup base k with
  | none => simp [Option.orElse, alookup_filter_not_base _ _ _ hb]
  | some v => simp [Option.orElse]

theorem alookup_dictUpdate_of_upd {base upd : Args} {k : String} {v : Val}
    (h : alookup upd k = some v) :
    alookup (dictUpdate base upd) k = some v := by
  rw [alookup_dictUpdate]
  cases hb : alookup base k <;> simp [h]

theorem alookup_dictUpdate_of_not_upd {base upd : Args} {k : String}
    (h : alookup upd k = Option.none) :
    alookup (dictUpdate base upd) k = alookup base k := by
  rw [alookup_dictUpdate]
  cases hb : alookup base k <;> simp [h]

theorem dictUpdate_keys {base upd : Args}
    (h : ∀ kv ∈ upd, (alookup base kv.1).isSome = true) :
    (dictUpdate base upd).map Prod.fst = base.map Prod.fst := by
  unfold dictUpdate
  have hf : upd.filter (fun kv => (alookup base kv.1).isNone) = [] := by
    rw [List.filter_eq_nil_iff]
    intro kv hkv
    have hs := h kv hkv
    cases halo : alookup base kv.1 <;> simp [halo] at hs ⊢
  rw [hf, List.append_nil, List.map_map]
  apply List.map_congr_left
  intro kv _
  cases hu : alookup upd kv.1 <;> simp [hu]

theorem assemble_append (s₁ s₂ : List Param) (g : Param → Option Val) :
    assemble (s₁ ++ s₂) g = assemble s₁ g ++ assemble s₂ g := by
  simp [assemble, List.filterMap_append]

theorem assemble_of_forall {g : Param → Option Val} (L : List (Param × Val))
    (hL : ∀ x ∈ L, g x.1 = some x.2) :
    assemble (L.map Prod.fst) g = pvPairs L := by
  induction L with
  | nil => rfl
  | cons x xs ih =>
    have hx := hL x (List.mem_cons_self _ _)
    have ihx := ih (fun y hy => hL y (List.mem_cons_of_mem _ hy))
    simp [assemble, pvPairs, List.filterMap_cons, hx] at ihx ⊢
    exact ihx

theorem assemble_lookup {sig : List Param} {g : Param → Option Val} {k : String} {v : Val}
    (hex : ∃ p ∈ sig, p.name = k)
    (hall : ∀ p ∈ sig, p.name = k → g p = some v) :
    alookup (assemble sig g) k = some v := by
  induction sig with
  | nil => simp at hex
  | cons p ps ih =>
    by_cases hp : p.name = k
    · have hg := hall p (List.mem_cons_self _ _) hp
      simp [assemble, List.filterMap_cons, hg, alookup, hp]
    · have hex' : ∃ q ∈ ps, q.name = k := by
        rcases hex with ⟨q, hq, hqk⟩
        rcases List.mem_cons.mp hq with hq | hq
        · exact absurd (hq ▸ hqk) hp
        · exact ⟨q, hq, hqk⟩
      have ihx := ih hex' (fun q hq hqk => hall q (List.mem_cons_of_mem _ hq) hqk)
      cases hg : g p with
      | none => simpa [assemble, List.filterMap_cons, hg] using ihx
      | some w => simpa [assemble, List.filterMap_cons, hg, alookup, hp] using ihx

theorem kwBindCheck_ok_forall {sig : List Param} {posNames : List String} {kws : Args}
    (h : kwBindCheck sig posNames kws = .ok ()) :
    ∀ kv ∈ kws, kv.1 ∈ sigNames sig ∧ kv.1 ∉ posNames := by
  induction kws with
  | nil => simp
  | cons kv rest ih =>
    obtain ⟨k, v⟩ := kv
    by_cases hc : k ∈ sigNames sig
    · by_cases hpn : k ∈ posNames
      · simp [kwBindCheck, hc, hpn] at h
      · by_cases hr : k ∈ rest.map Prod.fst
        · simp [kwBindCheck, hc, hpn, hr] at h
        · simp [kwBindCheck, hc, hpn, hr] at h
          intro kv hkv
          rcases List.mem_cons.mp hkv with hkv | hkv
          · rw [hkv]; exact ⟨hc, hpn⟩
          · exact ih h kv hkv
    · simp [kwBindCheck, hc] at h

theorem kwBindCheck_ok_of {sig : List Param} {posNames : List String} {kws : Args}
    (h1 : ∀ kv ∈ kws, kv.1 ∈ sigNames sig ∧ kv.1 ∉ posNames)
    (h2 : (kws.map Prod.fst).Nodup) :
    kwBindCheck sig posNames kws = .ok () := by
  induction kws with
  | nil => rfl
  | cons kv rest ih =>
    obtain ⟨k, v⟩ := kv
    obtain ⟨hc, hpn⟩ := h1 (k, v) (List.mem_cons_self _ _)
    simp only [List.map_cons, List.nodup_cons] at h2
    have hrec := ih (fun kv hkv => h1 kv (List.mem_cons_of_mem _ hkv)) h2.2
    simp [kwBindCheck, hc, hpn, h2.1, hrec]

theorem bindPartial_ok_inv {sig : List Param} {posArgs : List Val} {kwargs : Args} {ba : Args}
    (h : bindPartial sig posArgs kwargs = .ok ba) :
    ∃ pb, posBind sig posArgs = .ok pb ∧
      kwBindCheck sig (pb.map Prod.fst) kwargs = .ok () ∧
      ba = assemble sig (fun p => (alookup pb p.name).orElse (fun _ => alookup kwargs p.name)) := by
  cases hpb : posBind sig posArgs with
  | error e => simp [bindPartial, hpb, Except.bind, bind, Except.instMonad] at h
  | ok pb =>
    cases hkc : kwBindCheck sig (pb.map Prod.fst) kwargs with
    | error e => simp [bindPartial, hpb, hkc, Except.bind, bind, Except.instMonad] at h
    | ok u =>
      obtain ⟨⟩ := u
      simp [bindPartial, hpb, hkc, Except.bind, bind, Except.instMonad] at h
      exact ⟨pb, rfl, hkc, h.symm⟩

theorem fullBind_ok_inv {sig : List Param} {posArgs : List Val} {kwargs : Args} {fa : Args}
    (h : fullBind sig posArgs kwargs = .ok fa) :
    ∃ ba, bindPartial sig posArgs kwargs = .ok ba ∧ fa = applyDefaults sig ba := by
  cases hba : bindPartial sig posArgs kwargs with
  | error e => simp [fullBind, hba, Except.bind, bind, Except.instMonad] at h
  | ok ba =>
    by_cases hall : sig.all (fun p => (alookup (applyDefaults sig ba) p.name).isSome) = true
    · simp [fullBind, hba, hall, Except.bind, bind, Except.instMonad] at h
      exact ⟨ba, rfl, h.symm⟩
    · simp [fullBind, hba, hall, Except.bind, bind, Except.instMonad] at h

theorem fullBind_lookup_kw {sig : List Param} {posArgs : List Val} {kwargs fa : Args}
    {k : String} {v : Val} (hk : alookup kwargs k = some v)
    (h : fullBind sig posArgs kwargs = .ok fa) :
    alookup fa k = some v := by
  obtain ⟨ba, hba, hfa⟩ := fullBind_ok_inv h
  obtain ⟨pb, _, hkc, hbaeq⟩ := bindPartial_ok_inv hba
  obtain ⟨hmem, hnotpos⟩ := kwBindCheck_ok_forall hkc (k, v) (alookup_mem hk)
  have hex : ∃ p ∈ sig, p.name = k := by
    rcases List.mem_map.mp hmem with ⟨p, hp, hpk⟩
    exact ⟨p, hp, hpk⟩
  have hpb : alookup pb k = Option.none := alookup_eq_none hnotpos
  have hba_k : alookup ba k = some v := by
    rw [hbaeq]
    exact assemble_lookup hex (fun p hp hpk => by rw [hpk, hpb, hk]; rfl)
  rw [hfa]
  exact assemble_lookup hex (fun p hp hpk => by rw [hpk, hba_k]; rfl)

theorem normalizeOutcome_ok_inv {resp ap : Val} {r : Int} {a aid rc : Val}
    (h : normalizeOutcome resp ap r = .ok (a, aid, rc)) :
    truthy aid = true ∧ aid = dget resp "account_id" := by
  by_cases ht : truthy (dget resp "account_id") = true
  · simp [normalizeOutcome, ht] at h
    exact ⟨h.2.1 ▸ ht, h.2.1.symm⟩
  · simp [normalizeOutcome, ht] at h

theorem pvPairs_append (a b : List (Param × Val)) : pvPairs (a ++ b) = pvPairs a ++ pvPairs b := by
  simp [pvPairs]

theorem pvPairs_keys (l : List (Param × Val)) :
    (pvPairs l).map Prod.fst = l.map (fun x => x.1.name) := by
  simp [pvPairs]

theorem alookup_pvPairs_self {L : List (Param × Val)}
    (hnd : (L.map (fun x => x.1.name)).Nodup) :
    ∀ x ∈ L, alookup (pvPairs L) x.1.name = some x.2 := by
  induction L with
  | nil => simp
  | cons y ys ih =>
    simp only [List.map_cons, List.nodup_cons] at hnd
    intro x hx
    rcases List.mem_cons.mp hx with hx | hx
    · subst hx
      show alookup ((x.1.name, x.2) :: pvPairs ys) x.1.name = some x.2
      simp [alookup]
    · have hne : ¬ y.1.name = x.1.name := by
        intro he
        exact hnd.1 (he ▸ List.mem_map.mpr ⟨x, hx, rfl⟩)
      show alookup ((y.1.name, y.2) :: pvPairs ys) x.1.name = some x.2
      simp [alookup, hne]
      exact ih hnd.2 x hx

theorem posBind_exact (Pv : List (Param × Val)) (rest : List Param)
    (h : ∀ x ∈ Pv, x.1.kwOnly = false) :
    posBind (Pv.map Prod.fst ++ rest) (Pv.map Prod.snd) = .ok (pvPairs Pv) := by
  induction Pv with
  | nil => simp [posBind, pvPairs]
  | cons x xs ih =>
    have hx := h x (List.mem_cons_self _ _)
    simp [posBind, hx, ih (fun y hy => h y (List.mem_cons_of_mem _ hy)), pvPairs,
      Except.map]

theorem boundArgsPos_spec (Pv Qv : List (Param × Val)) (args : Args)
    (hP : ∀ x ∈ Pv, x.1.kwOnly = false ∧ alookup args x.1.name = some x.2)
    (hQ : ∀ x ∈ Qv, x.1.kwOnly = true) :
    boundArgsPos (Pv.map Prod.fst ++ Qv.map Prod.fst) args = Pv.map Prod.snd := by
  induction Pv with
  | nil =>
    cases Qv with
    | nil => rfl
    | cons q qs => simp [boundArgsPos, hQ q (List.mem_cons_self _ _)]
  | cons x xs ih =>
    obtain ⟨hxk, hxl⟩ := hP x (List.mem_cons_self _ _)
    simp [boundArgsPos, hxk, hxl, ih (fun y hy => hP y (List.mem_cons_of_mem _ hy))]

theorem boundArgsKwAux_skip (Pv : List (Param × Val)) (rest : List Param) (args : Args)
    (hP : ∀ x ∈ Pv, x.1.kwOnly = false ∧ alookup args x.1.name = some x.2) :
    boundArgsKwAux (Pv.map Prod.fst ++ rest) args false = boundArgsKwAux rest args false := by
  induction Pv with
  | nil => rfl
  | cons x xs ih =>
    obtain ⟨hxk, hxl⟩ := hP x (List.mem_cons_self _ _)
    simp [boundArgsKwAux, hxk, hxl, ih (fun y hy => hP y (List.mem_cons_of_mem _ hy))]

theorem boundArgsKwAux_collect (Qv : List (Param × Val)) (args : Args)
    (hQ : ∀ x ∈ Qv, x.1.kwOnly = true ∧ alookup args x.1.name = some x.2) :
    ∀ b, boundArgsKwAux (Qv.map Prod.fst) args b = pvPairs Qv := by
  induction Qv with
  | nil => intro b; rfl
  | cons q qs ih =>
    intro b
    obtain ⟨hqk, hql⟩ := hQ q (List.mem_cons_self _ _)
    simp [boundArgsKwAux, hqk, hql, pvPairs,
      ih (fun y hy => hQ y (List.mem_cons_of_mem _ hy)) true]

theorem boundArgsKw_split (Pv Qv : List (Param × Val)) (args : Args)
    (hP : ∀ x ∈ Pv, x.1.kwOnly = false ∧ alookup args x.1.name = some x.2)
    (hQ : ∀ x ∈ Qv, x.1.kwOnly = true ∧ alookup args x.1.name = some x.2) :
    boundArgsKw (Pv.map Prod.fst ++ Qv.map Prod.fst) args = pvPairs Qv := by
  unfold boundArgsKw
  rw [boundArgsKwAux_skip Pv _ args hP]
  exact boundArgsKwAux_collect Qv args hQ false

/-- The keyword-only block of a signature, with the injected values overlaid
on the bound values (what the re-invocation is expected to deliver for the
keyword-only parameters). -/
def overlayInj (inj : Args) (Qv : List (Param × Val)) : List (Param × Val) :=
  Qv.map (fun x => (x.1, (alookup inj x.1.name).getD x.2))

theorem overlayInj_fst (inj : Args) (Qv : List (Param × Val)) :
    (overlayInj inj Qv).map Prod.fst = Qv.map Prod.fst := by
  simp [overlayInj]

theorem overlayInj_names (inj : Args) (Qv : List (Param × Val)) :
    (overlayInj inj Qv).map (fun x => x.1.name) = Qv.map (fun x => x.1.name) := by
  simp [overlayInj]

theorem dictUpdate_pq (Pv Qv : List (Param × Val)) (inj : Args)
    (hnd : ((Pv ++ Qv).map (fun x => x.1.name)).Nodup)
    (hinjQ : ∀ kv ∈ inj, ∃ x ∈ Qv, x.1.name = kv.1) :
    dictUpdate (pvPairs (Pv ++ Qv)) inj = pvPairs Pv ++ pvPairs (overlayInj inj Qv) := by
  simp only [List.map_append, List.nodup_append] at hnd
  obtain ⟨hndP, hndQ, hdisj⟩ := hnd
  have hPnone : ∀ x ∈ Pv, alookup inj x.1.name = Option.none := by
    intro x hx
    apply alookup_eq_none
    intro hmem
    rcases List.mem_map.mp hmem with ⟨kv, hkv, hkeq⟩
    rcases hinjQ kv hkv with ⟨y, hy, hyname⟩
    exact hdisj (List.mem_map.mpr ⟨x, hx, rfl⟩)
      (List.mem_map.mpr ⟨y, hy, by rw [hyname, hkeq]⟩)
  have hfilter : inj.filter (fun kv => (alookup (pvPairs (Pv ++ Qv)) kv.1).isNone) = [] := by
    rw [List.filter_eq_nil_iff]
    intro kv hkv
    rcases hinjQ kv hkv with ⟨y, hy, hyname⟩
    have hylook : alookup (pvPairs (Pv ++ Qv)) y.1.name = some y.2 := by
      apply alookup_pvPairs_self (by simp [List.nodup_append, hndP, hndQ, hdisj])
      exact List.mem_append.mpr (Or.inr hy)
    rw [← hyname, hylook]
    simp
  unfold dictUpdate
  rw [hfilter, List.append_nil, pvPairs_append, List.map_append]
  congr 1
  · -- the positional-or-keyword block is untouched: none of its keys is injected
    rw [show (pvPairs Pv).map (fun kv =>
        match alookup inj kv.1 with
        | some v => (kv.1, v)
        | Option.none => kv) = (pvPairs Pv).map id from ?_]
    · simp
    · apply List.map_congr_left
      intro kv hkv
      rcases List.mem_map.mp hkv with ⟨x, hx, hxeq⟩
      have := hPnone x hx
      rw [← hxeq] at *
      simp_all
  · -- the keyword-only block is overlaid with the injected values
    unfold pvPairs overlayInj
    rw [List.map_map, List.map_map]
    apply List.map_congr_left
    intro x hx
    have hxlook : alookup (pvPairs (Pv ++ Qv)) x.1.name = some x.2 := by
      apply alookup_pvPairs_self (by simp [List.nodup_append, hndP, hndQ, hdisj])
      exact List.mem_append.mpr (Or.inr hx)
    simp only [Function.comp]
    cases hinj : alookup inj x.1.name <;> simp [hinj]

theorem fullBind_roundtrip (Pv Qv : List (Param × Val)) (inj : Args)
    (hP : ∀ x ∈ Pv, x.1.kwOnly = false)
    (hnd : ((Pv ++ Qv).map (fun x => x.1.name)).Nodup)
    (hinjQ : ∀ kv ∈ inj, ∃ x ∈ Qv, x.1.name = kv.1) :
    fullBind (Pv.map Prod.fst ++ Qv.map Prod.fst) (Pv.map Prod.snd)
      (dictUpdate (pvPairs Qv) inj) =
      .ok (pvPairs Pv ++ pvPairs (overlayInj inj Qv)) := by
  have hnd' := hnd
  simp only [List.map_append, List.nodup_append] at hnd'
  obtain ⟨hndP, hndQ, hdisj⟩ := hnd'
  have hQpresent : ∀ kv ∈ inj, (alookup (pvPairs Qv) kv.1).isSome = true := by
    intro kv hkv
    rcases hinjQ kv hkv with ⟨x, hx, hxn⟩
    rw [← hxn, alookup_pvPairs_self hndQ x hx]
    rfl
  have hkeys : (dictUpdate (pvPairs Qv) inj).map Prod.fst = Qv.map (fun x => x.1.name) := by
    rw [dictUpdate_keys hQpresent, pvPairs_keys]
  have hpos := posBind_exact Pv (Qv.map Prod.fst) hP
  have hkc : kwBindCheck (Pv.map Prod.fst ++ Qv.map Prod.fst) ((pvPairs Pv).map Prod.fst)
      (dictUpdate (pvPairs Qv) inj) = .ok () := by
    apply kwBindCheck_ok_of
    · intro kv hkv
      have hkmem : kv.1 ∈ Qv.map (fun x => x.1.name) := by
        rw [← hkeys]
        exact List.mem_map.mpr ⟨kv, hkv, rfl⟩
      rcases List.mem_map.mp hkmem with ⟨x, hx, hxeq⟩
      constructor
      · show kv.1 ∈ sigNames (Pv.map Prod.fst ++ Qv.map Prod.fst)
        unfold sigNames
        rw [List.map_append]
        exact List.mem_append.mpr (Or.inr (by
          rw [List.map_map]
          exact List.mem_map.mpr ⟨x, hx, hxeq⟩))
      · rw [pvPairs_keys]
        intro hmemP
        exact hdisj hmemP hkmem
    · rw [hkeys]
      exact hndQ
  have hasm : assemble (Pv.map Prod.fst ++ Qv.map Prod.fst)
      (fun p => (alookup (pvPairs Pv) p.name).orElse
        (fun _ => alookup (dictUpdate (pvPairs Qv) inj) p.name)) =
      pvPairs Pv ++ pvPairs (overlayInj inj Qv) := by
    rw [assemble_append]
    congr 1
    · apply assemble_of_forall
      intro x hx
      rw [alookup_pvPairs_self hndP x hx]
      rfl
    · rw [← overlayInj_fst inj Qv]
      apply assemble_of_forall
      intro y hy
      rcases List.mem_map.mp hy with ⟨x, hx, hxeq⟩
      have hnotP : x.1.name ∉ Pv.map (fun z => z.1.name) := fun hmem =>
        hdisj hmem (List.mem_map.mpr ⟨x, hx, rfl⟩)
      have h1 : alookup (pvPairs Pv) x.1.name = Option.none := by
        apply alookup_eq_none
        rw [pvPairs_keys]
        exact hnotP
      have h2 : alookup (dictUpdate (pvPairs Qv) inj) x.1.name =
          some ((alookup inj x.1.name).getD x.2) := by
        rw [alookup_dictUpdate, alookup_pvPairs_self hndQ x hx]
      rw [← hxeq]
      simp only [overlayInj] at *
      simp [h1, h2, Option.orElse]
  have hnd2 : ((Pv ++ overlayInj inj Qv).map (fun x => x.1.name)).Nodup := by
    rw [List.map_append, overlayInj_names]
    rw [List.map_append] at hnd
    exact hnd
  have hself : ∀ z ∈ Pv ++ overlayInj inj Qv,
      alookup (pvPairs Pv ++ pvPairs (overlayInj inj Qv)) z.1.name = some z.2 := by
    rw [← pvPairs_append]
    exact alookup_pvPairs_self hnd2
  have hsig : Pv.map Prod.fst ++ Qv.map Prod.fst = (Pv ++ overlayInj inj Qv).map Prod.fst := by
    rw [List.map_append, overlayInj_fst]
  have happ : applyDefaults (Pv.map Prod.fst ++ Qv.map Prod.fst)
      (pvPairs Pv ++ pvPairs (overlayInj inj Qv)) =
      pvPairs Pv ++ pvPairs (overlayInj inj Qv) := by
    unfold applyDefaults
    rw [← pvPairs_append, hsig]
    apply assemble_of_forall
    intro z hz
    rw [pvPairs_append] at *
    rw [hself z hz]
    rfl
  have hall : (Pv.map Prod.fst ++ Qv.map Prod.fst).all
      (fun p => (alookup (pvPairs Pv ++ pvPairs (overlayInj inj Qv)) p.name).isSome) = true := by
    rw [List.all_eq_true]
    intro p hp
    rw [hsig] at hp
    rcases List.mem_map.mp hp with ⟨z, hz, hzeq⟩
    rw [← hzeq, hself z hz]
    rfl
  simp only [fullBind, bindPartial, hpos, hkc, Except.bind, bind, Except.instMonad]
  rw [hasm, happ, hall]
  rfl

/-- C7: a normalized outcome whose account identifier is falsy (empty or
missing) always fails the invocation with the protocol-failure cause of the
single `AccountServiceError` type, and the wrapped task is not invoked; in
fact every run that does invoke the task delivers a truthy `account_id`. -/
theorem C7_empty_account_id_rejected :
    (∀ (resp ap : Val) (r : Int), truthy (dget resp "account_id") = false →
      normalizeOutcome resp ap r = Except.error (PyError.accountServiceError
        (ErrCause.protocolFailure "Account Service response missing account_id"))) ∧
    (∀ (cfg : DecoratorConfig) (sig : List Param) (remote : Remote) (posArgs : List Val)
        (kwargs ba : Args) (body : Val),
      bindPartial sig posArgs kwargs = Except.ok ba →
      remote.reserve = RemoteResult.ok body →
      truthy (dget body "account_id") = false →
      (runWrapper cfg sig remote posArgs kwargs).2 = RunResult.failed
        (PyError.accountServiceError
          (ErrCause.protocolFailure "Account Service response missing account_id"))) ∧
    (∀ (cfg : DecoratorConfig) (sig : List Param) (remote : Remote) (posArgs : List Val)
        (kwargs finalArgs : Args),
      (runWrapper cfg sig remote posArgs kwargs).2 = RunResult.invoked finalArgs →
      ∃ aid, alookup finalArgs "account_id" = some aid ∧ truthy aid = true) := by
  refine ⟨?_, ?_, ?_⟩
  · intro resp ap r h
    simp [normalizeOutcome, h]
  · intro cfg sig remote posArgs kwargs ba body hba hres hid
    simp only [runWrapper, hba]
    rw [runProtocol_reserve_ok hres]
    simp [normalizeOutcome, hid]
  · intro cfg sig remote posArgs kwargs finalArgs h
    cases hba : bindPartial sig posArgs kwargs with
    | error m => simp [runWrapper, hba] at h
    | ok ba =>
      rcases hrp : runProtocol remote cfg.type (_resolve_account_override (applyDefaults sig ba))
          (_resolve_request_count (applyDefaults sig ba) cfg.request_count
            cfg.calculate_request_count) with ⟨tr, res⟩
      cases res with
      | error e => simp [runWrapper, hba, hrp] at h
      | ok pr =>
        obtain ⟨resp, ap⟩ := pr
        cases hN : normalizeOutcome resp ap
            (_resolve_request_count (applyDefaults sig ba) cfg.request_count
              cfg.calculate_request_count) with
        | error e => simp [runWrapper, hba, hrp, hN] at h
        | ok out =>
          obtain ⟨a, aid, rc⟩ := out
          cases hF : fullBind sig (boundArgsPos sig (applyDefaults sig ba))
              (dictUpdate (boundArgsKw sig (applyDefaults sig ba))
                [("account", a), ("account_id", aid), ("request_count", rc)]) with
          | error m => simp [runWrapper, hba, hrp, hN, hF] at h
          | ok fa =>
            simp [runWrapper, hba, hrp, hN, hF] at h
            obtain ⟨ht, _⟩ := normalizeOutcome_ok_inv hN
            have hinj : alookup [("account", a), ("account_id", aid), ("request_count", rc)]
                "account_id" = some aid := by simp [alookup]
            have hck := @alookup_dictUpdate_of_upd
              (boundArgsKw sig (applyDefaults sig ba)) _ _ _ hinj
            have hfa := fullBind_lookup_kw hck hF
            exact ⟨aid, h ▸ hfa, ht⟩

/-- C7 witness: a reserve response lacking `account_id` makes normalization
fail with the protocol cause; a whole invocation against such a server
fails the same way (the task is not invoked); and a successful invocation
delivers a truthy `account_id`. -/
theorem C7_witness :
    normalizeOutcome (Val.dict [("account", Val.dict [("provider", Val.str "g")])])
      (Val.dict [("provider", Val.str "g")]) 1 =
      Except.error (PyError.accountServiceError
        (ErrCause.protocolFailure "Account Service response missing account_id")) ∧
    (runWrapper cfgFixed3 [] remoteNoId [] []).2 = RunResult.failed
      (PyError.accountServiceError
        (ErrCause.protocolFailure "Account Service response missing account_id")) ∧
    (∃ aid, alookup
        [("url", Val.str "http://x"), ("num_results", Val.int 20),
         ("account", Val.dict [("account_id", Val.str "a1"), ("provider", Val.str "g")]),
         ("account_id", Val.str "a1"), ("request_count", Val.int 3)] "account_id" =
        some aid ∧ truthy aid = true) :=
  ⟨C7_empty_account_id_rejected.1 (Val.dict [("account", Val.dict [("provider", Val.str "g")])])
      (Val.dict [("provider", Val.str "g")]) 1 rfl,
   C7_empty_account_id_rejected.2.1 cfgFixed3 [] remoteNoId [] [] [] (Val.dict
      [("account", Val.dict [("provider", Val.str "g")])]) rfl rfl rfl,
   C7_empty_account_id_rejected.2.2 cfgDerive sigKwOnly remotePreferred [Val.str "http://x"]
      [] _ rfl⟩

/-- C8 counterexample: a task declaring `account` (and the other injected
names) as positional-or-keyword parameters never receives the caller's
inputs — although the reservation succeeded, the re-invocation raises a
duplicate-argument `TypeError`, so neither the round-trip nor the overwrite
described by the claim happens. -/
theorem C8_counterexample :
    runWrapper cfgDerive sigPositional remotePreferred [Val.str "http://x", Val.str "A"] [] =
      ([CallEv.reserveCall "google_account" (Val.dict [("request_count", Val.int 1)])
          Option.none],
       RunResult.failed (PyError.typeError "got multiple values for argument account")) := rfl

/-- C8 (amended): when the reservation succeeds and every parameter of the
wrapped task named `account`, `account_id` or `request_count` is declared
keyword-only, the task is invoked with all other caller-supplied inputs
unchanged in value and position, and the three injected values overwriting
any caller-supplied values under those names. -/
theorem C8_roundtrip (cfg : DecoratorConfig) (remote : Remote) (posArgs : List Val)
    (kwargs ba : Args) (Pv Qv : List (Param × Val)) (body : Val) (R : Int) (O : Option String)
    (hP : ∀ x ∈ Pv, x.1.kwOnly = false)
    (hQ : ∀ x ∈ Qv, x.1.kwOnly = true)
    (hnd : ((Pv ++ Qv).map (fun x => x.1.name)).Nodup)
    (hdecl : ∀ n ∈ injectedNames, ∃ x ∈ Qv, x.1.name = n)
    (hba : bindPartial (Pv.map Prod.fst ++ Qv.map Prod.fst) posArgs kwargs = Except.ok ba)
    (hfull : applyDefaults (Pv.map Prod.fst ++ Qv.map Prod.fst) ba = pvPairs (Pv ++ Qv))
    (hres : remote.reserve = RemoteResult.ok body)
    (hid : truthy (dget body "account_id") = true)
    (hR : _resolve_request_count (pvPairs (Pv ++ Qv)) cfg.request_count
      cfg.calculate_request_count = R)
    (hO : _resolve_account_override (pvPairs (Pv ++ Qv)) = O) :
    runWrapper cfg (Pv.map Prod.fst ++ Qv.map Prod.fst) remote posArgs kwargs =
      ([CallEv.reserveCall cfg.type (Val.dict [("request_count", Val.int R)]) O],
       RunResult.invoked (dictUpdate (pvPairs (Pv ++ Qv)) (injectedOutcome body R))) ∧
    (∀ k, k ∉ injectedNames →
      alookup (dictUpdate (pvPairs (Pv ++ Qv)) (injectedOutcome body R)) k =
        alookup (pvPairs (Pv ++ Qv)) k) ∧
    alookup (dictUpdate (pvPairs (Pv ++ Qv)) (injectedOutcome body R)) "account" =
      some (pyOr (dget body "account") (Val.dict [])) ∧
    alookup (dictUpdate (pvPairs (Pv ++ Qv)) (injectedOutcome body R)) "account_id" =
      some (dget body "account_id") ∧
    alookup (dictUpdate (pvPairs (Pv ++ Qv)) (injectedOutcome body R)) "request_count" =
      some (dgetD body "request_count" (Val.int R)) := by
  have hnd' := hnd
  simp only [List.map_append, List.nodup_append] at hnd'
  obtain ⟨hndP, hndQ, hdisj⟩ := hnd'
  have hlook := alookup_pvPairs_self hnd
  have hPfull : ∀ x ∈ Pv, x.1.kwOnly = false ∧
      alookup (pvPairs (Pv ++ Qv)) x.1.name = some x.2 :=
    fun x hx => ⟨hP x hx, hlook x (List.mem_append.mpr (Or.inl hx))⟩
  have hQfull : ∀ x ∈ Qv, x.1.kwOnly = true ∧
      alookup (pvPairs (Pv ++ Qv)) x.1.name = some x.2 :=
    fun x hx => ⟨hQ x hx, hlook x (List.mem_append.mpr (Or.inr hx))⟩
  have hinjQ : ∀ kv ∈ injectedOutcome body R, ∃ x ∈ Qv, x.1.name = kv.1 := by
    intro kv hkv
    have hmem : kv.1 ∈ injectedNames := by
      have hmap : (injectedOutcome body R).map Prod.fst = injectedNames := rfl
      rw [← hmap]
      exact List.mem_map.mpr ⟨kv, hkv, rfl⟩
    exact hdecl kv.1 hmem
  refine ⟨?_, ?_, ?_, ?_, ?_⟩
  · simp only [runWrapper, hba]
    rw [hfull, hR, hO, runProtocol_reserve_ok hres]
    have hnorm : normalizeOutcome body (pyOr (dget body "account") (Val.dict [])) R =
        Except.ok (pyOr (dget body "account") (Val.dict []), dget body "account_id",
          dgetD body "request_count" (Val.int R)) := by
      simp [normalizeOutcome, hid, pyOr_absorb]
    dsimp only
    rw [hnorm]
    dsimp only
    rw [boundArgsPos_spec Pv Qv _ hPfull hQ, boundArgsKw_split Pv Qv _ hPfull hQfull]
    rw [show ([("account", pyOr (dget body "account") (Val.dict [])),
        ("account_id", dget body "account_id"),
        ("request_count", dgetD body "request_count" (Val.int R))] : Args) =
      injectedOutcome body R from rfl]
    rw [fullBind_roundtrip Pv Qv (injectedOutcome body R) hP hnd hinjQ]
    dsimp only
    rw [dictUpdate_pq Pv Qv (injectedOutcome body R) hnd hinjQ]
  · intro k hk
    apply alookup_dictUpdate_of_not_upd
    apply alookup_eq_none
    rw [show (injectedOutcome body R).map Prod.fst = injectedNames from rfl]
    exact hk
  · exact alookup_dictUpdate_of_upd (by simp [injectedOutcome, alookup])
  · exact alookup_dictUpdate_of_upd (by simp [injectedOutcome, alookup])
  · exact alookup_dictUpdate_of_upd (by simp [injectedOutcome, alookup])

/-- C8 witness: with the three injected names declared keyword-only, the
task is invoked with the caller's `url` unchanged in place, the applied
default for `num_results`, and the three injected values. -/
theorem C8_witness :
    runWrapper cfgDerive sigKwOnly remotePreferred [Val.str "http://x"] [] =
      ([CallEv.reserveCall "google_account" (Val.dict [("request_count", Val.int 20)])
          Option.none],
       RunResult.invoked
         [("url", Val.str "http://x"), ("num_results", Val.int 20),
          ("account", Val.dict [("account_id", Val.str "a1"), ("provider", Val.str "g")]),
          ("account_id", Val.str "a1"), ("request_count", Val.int 3)]) := by
  have h := C8_roundtrip cfgDerive remotePreferred [Val.str "http://x"] []
    [("url", Val.str "http://x")]
    [(⟨"url", false, Option.none⟩, Val.str "http://x"),
     (⟨"num_results", false, some (Val.int 20)⟩, Val.int 20)]
    [(⟨"account", true, some Val.none⟩, Val.none),
     (⟨"account_id", true, some Val.none⟩, Val.none),
     (⟨"request_count", true, some Val.none⟩, Val.none)]
    (Val.dict [("account", Val.dict [("account_id", Val.str "a1"), ("provider", Val.str "g")]),
       ("account_id", Val.str "a1"), ("request_count", Val.int 3)])
    20 Option.none
    (by decide) (by decide) (by decide)
    (by
      intro n hn
      simp only [injectedNames] at hn
      fin_cases hn
      · exact ⟨(⟨"account", true, some Val.none⟩, Val.none), by simp, rfl⟩
      · exact ⟨(⟨"account_id", true, some Val.none⟩, Val.none), by simp, rfl⟩
      · exact ⟨(⟨"request_count", true, some Val.none⟩, Val.none), by simp, rfl⟩)
    rfl rfl rfl rfl rfl rfl
  exact h.1

/-- C10 counterexample: a caller-supplied *keyword* value for a
positional-or-keyword `account_id` parameter is not overwritten either —
the re-invocation still raises the duplicate-argument `TypeError`
(`apply_defaults` materializes every positional-or-keyword parameter
positionally), refuting the claim's "keyword-supplied or defaulted"
exception. -/
theorem C10_counterexample :
    runWrapper cfgDerive sigPositional remotePreferred [Val.str "http://x"]
      [("account_id", Val.str "u")] =
      ([CallEv.reserveCall "google_account" (Val.dict [("request_count", Val.int 1)])
          (some "u")],
       RunResult.failed (PyError.typeError "got multiple values for argument account")) := rfl

/-- C10 (amended): whenever the wrapped task declares any parameter named
`account`, `account_id` or `request_count` as positional-or-keyword — no
matter how the caller supplied it (positionally, by keyword, or left to its
default) — a successful reservation ends in a duplicate-argument
`TypeError` at re-invocation; overwriting works only for keyword-only
parameters. -/
theorem C10_positional_duplicate (cfg : DecoratorConfig) (remote : Remote)
    (posArgs : List Val) (kwargs ba : Args) (Pv Qv : List (Param × Val)) (body : Val)
    (x : Param × Val)
    (hP : ∀ y ∈ Pv, y.1.kwOnly = false)
    (hQ : ∀ y ∈ Qv, y.1.kwOnly = true)
    (hnd : ((Pv ++ Qv).map (fun y => y.1.name)).Nodup)
    (hx : x ∈ Pv) (hxinj : x.1.name ∈ injectedNames)
    (hba : bindPartial (Pv.map Prod.fst ++ Qv.map Prod.fst) posArgs kwargs = Except.ok ba)
    (hfull : applyDefaults (Pv.map Prod.fst ++ Qv.map Prod.fst) ba = pvPairs (Pv ++ Qv))
    (hres : remote.reserve = RemoteResult.ok body)
    (hid : truthy (dget body "account_id") = true) :
    isTypeErrorFailure
      (runWrapper cfg (Pv.map Prod.fst ++ Qv.map Prod.fst) remote posArgs kwargs).2 = true := by
  have hnd' := hnd
  simp only [List.map_append, List.nodup_append] at hnd'
  obtain ⟨hndP, hndQ, hdisj⟩ := hnd'
  have hlook := alookup_pvPairs_self hnd
  have hPfull : ∀ y ∈ Pv, y.1.kwOnly = false ∧
      alookup (pvPairs (Pv ++ Qv)) y.1.name = some y.2 :=
    fun y hy => ⟨hP y hy, hlook y (List.mem_append.mpr (Or.inl hy))⟩
  have hQfull : ∀ y ∈ Qv, y.1.kwOnly = true ∧
      alookup (pvPairs (Pv ++ Qv)) y.1.name = some y.2 :=
    fun y hy => ⟨hQ y hy, hlook y (List.mem_append.mpr (Or.inr hy))⟩
  set R := _resolve_request_count (pvPairs (Pv ++ Qv)) cfg.request_count
    cfg.calculate_request_count with hRdef
  -- the injected mapping always carries the offending name
  have hinjx : ∃ w, alookup (injectedOutcome body R) x.1.name = some w := by
    simp only [injectedNames, List.mem_cons, List.mem_singleton,
      List.not_mem_nil, or_false] at hxinj
    rcases hxinj with h | h | h <;> rw [h] <;> exact ⟨_, rfl⟩
  obtain ⟨w, hinjw⟩ := hinjx
  have hckx : ∃ w2, alookup (dictUpdate (pvPairs Qv) (injectedOutcome body R)) x.1.name =
      some w2 := ⟨w, alookup_dictUpdate_of_upd hinjw⟩
  obtain ⟨w2, hckw⟩ := hckx
  -- the offending name is among the positionally bound names
  have hxpos : x.1.name ∈ (pvPairs Pv).map Prod.fst := by
    rw [pvPairs_keys]
    exact List.mem_map.mpr ⟨x, hx, rfl⟩
  -- hence the keyword check of the re-invocation cannot succeed
  have hkcfail : ∀ u, kwBindCheck (Pv.map Prod.fst ++ Qv.map Prod.fst)
      ((pvPairs Pv).map Prod.fst) (dictUpdate (pvPairs Qv) (injectedOutcome body R)) ≠
      Except.ok u := by
    intro u hkc
    obtain ⟨⟩ := u
    have := (kwBindCheck_ok_forall hkc (x.1.name, w2) (alookup_mem hckw)).2
    exact this hxpos
  -- run the wrapper down to the failing re-invocation
  simp only [runWrapper, hba]
  rw [hfull, runProtocol_reserve_ok hres]
  have hnorm : normalizeOutcome body (pyOr (dget body "account") (Val.dict [])) R =
      Except.ok (pyOr (dget body "account") (Val.dict []), dget body "account_id",
        dgetD body "request_count" (Val.int R)) := by
    simp [normalizeOutcome, hid, pyOr_absorb]
  dsimp only
  rw [← hRdef, hnorm]
  dsimp only
  rw [boundArgsPos_spec Pv Qv _ hPfull hQ, boundArgsKw_split Pv Qv _ hPfull hQfull]
  rw [show ([("account", pyOr (dget body "account") (Val.dict [])),
      ("account_id", dget body "account_id"),
      ("request_count", dgetD body "request_count" (Val.int R))] : Args) =
    injectedOutcome body R from rfl]
  have hpos := posBind_exact Pv (Qv.map Prod.fst) hP
  cases hkc : kwBindCheck (Pv.map Prod.fst ++ Qv.map Prod.fst) ((pvPairs Pv).map Prod.fst)
      (dictUpdate (pvPairs Qv) (injectedOutcome body R)) with
  | ok u => exact absurd hkc (hkcfail u)
  | error m =>
    have hfb : fullBind (Pv.map Prod.fst ++ Qv.map Prod.fst) (Pv.map Prod.snd)
        (dictUpdate (pvPairs Qv) (injectedOutcome body R)) = Except.error m := by
      simp [fullBind, bindPartial, hpos, hkc, Except.bind, bind, Except.instMonad]
    rw [hfb]
    rfl

/-- C10 witness: a defaulted positional-or-keyword `account_id` supplied by
keyword ends, after a successful reservation, in a `TypeError`. -/
theorem C10_witness :
    isTypeErrorFailure
      (runWrapper cfgDerive sigPositional remotePreferred [Val.str "http://x"]
        [("account_id", Val.str "u")]).2 = true := by
  have h := C10_positional_duplicate cfgDerive remotePreferred [Val.str "http://x"]
    [("account_id", Val.str "u")]
    [("url", Val.str "http://x"), ("account_id", Val.str "u")]
    [(⟨"url", false, Option.none⟩, Val.str "http://x"),
     (⟨"account", false, some Val.none⟩, Val.none),
     (⟨"account_id", false, some Val.none⟩, Val.str "u"),
     (⟨"request_count", false, some Val.none⟩, Val.none)]
    []
    (Val.dict [("account", Val.dict [("account_id", Val.str "a1"), ("provider", Val.str "g")]),
       ("account_id", Val.str "a1"), ("request_count", Val.int 3)])
    (⟨"account_id", false, some Val.none⟩, Val.str "u")
    (by decide) (by decide) (by decide) (by simp) (by decide)
    rfl rfl rfl rfl
  exact h

/-- C6 counterexample: with no per-call page-size argument supplied and an
environment carrying `PAGE_SIZE_ENV=7` under the configured name, the
resolution order the claim describes yields 7, while the resolver the
source defines yields 1 — the source resolver consults no environment
variable at all (it does not even receive an environment). -/
theorem C6_counterexample :
    spec_records_per_page []
      (fun n => if n = "PAGE_SIZE_ENV" then some "7" else Option.none)
      (some "PAGE_SIZE_ENV") "google_account" = 7 ∧
    _resolve_records_per_page_from_args [] = 1 := ⟨rfl, rfl⟩

/-- C6 (amended): the records-per-page size is determined solely from the
per-call arguments — the first positive integer-parseable value among
`records_per_page`, `page_size`, `per_page` in that order of precedence —
and is the literal 1 when none of them supplies one; no environment
variable is consulted. -/
theorem C6_page_size_precedence (arguments : Args) :
    1 ≤ _resolve_records_per_page_from_args arguments ∧
    (∀ p : Int, argParsed arguments "records_per_page" = some p → 0 < p →
      _resolve_records_per_page_from_args arguments = p) ∧
    (argKeyUsable arguments "records_per_page" = false →
      ∀ p : Int, argParsed arguments "page_size" = some p → 0 < p →
        _resolve_records_per_page_from_args arguments = p) ∧
    (argKeyUsable arguments "records_per_page" = false →
      argKeyUsable arguments "page_size" = false →
      ∀ p : Int, argParsed arguments "per_page" = some p → 0 < p →
        _resolve_records_per_page_from_args arguments = p) ∧
    (argKeyUsable arguments "records_per_page" = false →
      argKeyUsable arguments "page_size" = false →
      argKeyUsable arguments "per_page" = false →
      _resolve_records_per_page_from_args arguments = 1) := by
  unfold _resolve_records_per_page_from_args rppKeys
  refine ⟨rppGo_ge_one _ _, ?_, ?_, ?_, ?_⟩
  · intro p hp hpos
    exact rppGo_cons_pos _ hp hpos
  · intro h1 p hp hpos
    rw [rppGo_cons_unusable h1]
    exact rppGo_cons_pos _ hp hpos
  · intro h1 h2 p hp hpos
    rw [rppGo_cons_unusable h1, rppGo_cons_unusable h2]
    exact rppGo_cons_pos _ hp hpos
  · intro h1 h2 h3
    rw [rppGo_cons_unusable h1, rppGo_cons_unusable h2, rppGo_cons_unusable h3]
    rfl

/-- C6 witness: a supplied `records_per_page = 0` is skipped and `page_size
= 50` wins; with nothing supplied the result is the literal 1. -/
theorem C6_witness :
    _resolve_records_per_page_from_args
      [("records_per_page", Val.int 0), ("page_size", Val.int 50)] = 50 ∧
    _resolve_records_per_page_from_args [] = 1 := by
  refine ⟨?_, ?_⟩
  · exact ((C6_page_size_precedence
      [("records_per_page", Val.int 0), ("page_size", Val.int 50)]).2.2.1 rfl 50 rfl
      (by decide))
  · exact ((C6_page_size_precedence []).2.2.2.2 rfl rfl rfl)

end AccountService
